import Mathlib

/-!
Shallow embedding of the cool-code-cleanup core pipeline.

The definitions below are translated from the Go sources:
rule loading and CLI overrides (internal/rules/rules.go), the task
planner and task executor (internal/cleanup/cleanup.go), the OpenAI
oracle client's batching and retry loop (the `ai` package), and the
permission engine (the `permission` package).

Go strings are modelled as Lean `String`; Go maps whose only uses are
membership tests, keyed lookup and keyed assignment are modelled as
association lists (`List (String × String)`), with the iteration order
of a map-valued oracle response made explicit as the order of the
association list.  Disk writes are modelled as updates to an explicit
disk association list and are assumed to succeed.
-/

namespace Ccc

/-! ### String helpers (models of Go `strings` functions) -/

/-- Model of Go `strings.ToLower` (ASCII case folding). -/
def lowerStr (s : String) : String := ⟨s.data.map Char.toLower⟩

/-- Model of Go `strings.TrimSpace`. -/
def trimStr (s : String) : String :=
  ⟨((s.data.dropWhile Char.isWhitespace).reverse.dropWhile Char.isWhitespace).reverse⟩

/-- Tests whether `pat` occurs at the start of `s`. -/
def leadsWith : List Char → List Char → Bool
  | [], _ => true
  | _ :: _, [] => false
  | a :: as, b :: bs => a == b && leadsWith as bs

/-- Character-list core of `strContains`. -/
def containsSub : List Char → List Char → Bool
  | [], pat => pat.isEmpty
  | c :: rest, pat => leadsWith pat (c :: rest) || containsSub rest pat

/-- Model of Go `strings.Contains`. -/
def strContains (s pat : String) : Bool := containsSub s.data pat.data

/-- Scanner for `countSub`: `skip` is the number of positions still covered
by the previous non-overlapping match. -/
def countSubAux (pat : List Char) : List Char → Nat → Nat
  | [], _ => 0
  | c :: rest, 0 =>
    if leadsWith pat (c :: rest) then 1 + countSubAux pat rest (pat.length - 1)
    else countSubAux pat rest 0
  | _ :: rest, skip + 1 => countSubAux pat rest skip

/-- Model of Go `strings.Count` (non-overlapping occurrences). -/
def countSub (s pat : String) : Nat :=
  if pat.data.isEmpty then s.data.length + 1 else countSubAux pat.data s.data 0

/-- Model of Go `strings.Join`. -/
def joinWith (sep : String) : List String → String
  | [] => ""
  | [x] => x
  | x :: xs => x ++ sep ++ joinWith sep xs

/-! ### Association-list helpers (models of Go map lookup/assignment) -/

/-- Keyed lookup in an association list (Go `v, ok := m[k]`). -/
def lookupA : List (String × String) → String → Option String
  | [], _ => none
  | (k, w) :: rest, p => if k = p then some w else lookupA rest p

/-- Keyed assignment in an association list (Go `m[k] = v`): replaces the
binding of an existing key in place, otherwise appends a new binding. -/
def setA : List (String × String) → String → String → List (String × String)
  | [], p, v => [(p, v)]
  | (k, w) :: rest, p, v => if k = p then (k, v) :: rest else (k, w) :: setA rest p v

/-! ### Rule store (internal/rules/rules.go) -/

structure Rule where
  id : String
  enabled : Bool
  title : String
  description : String
  details : String
  riskLevel : String
deriving Repr, DecidableEq

structure LoadedRule where
  rule : Rule
  sourceChain : List String
deriving Repr, DecidableEq

/-- Translation of `mergeRule` (rules.go:169-185): the override wins
field-by-field where its value is non-blank, and `Enabled` is taken
verbatim from the override. -/
def mergeRule (base override : Rule) : Rule :=
  let out := base
  let out := if trimStr override.title ≠ "" then { out with title := override.title } else out
  let out := if trimStr override.description ≠ "" then { out with description := override.description } else out
  let out := if trimStr override.details ≠ "" then { out with details := override.details } else out
  let out := if trimStr override.riskLevel ≠ "" then { out with riskLevel := override.riskLevel } else out
  { out with enabled := override.enabled }

/-- Translation of `normalizeSet` (rules.go:206-215); the Go set is used
only for membership, so a list of the normalized non-empty items models it. -/
def normalizeSet (items : List String) : List String :=
  (items.map (fun s => lowerStr (trimStr s))).filter (fun s => s ≠ "")

/-- Translation of `appendIfMissing` (rules.go:217-222). -/
def appendIfMissing (list : List String) (value : String) : List String :=
  if !list.contains value then list ++ [value] else list

/-- Per-rule body of the `ApplyCLIOverrides` loop (rules.go:122-132). -/
def applyCLIOne (enable disable : List String) (r : LoadedRule) : LoadedRule :=
  let id := lowerStr (trimStr r.rule.id)
  let r := if enable.contains id then
      { r with rule := { r.rule with enabled := true },
               sourceChain := appendIfMissing r.sourceChain "cli" }
    else r
  if disable.contains id then
    { r with rule := { r.rule with enabled := false },
             sourceChain := appendIfMissing r.sourceChain "cli" }
  else r

/-- Translation of `ApplyCLIOverrides` (rules.go:119-134). -/
def ApplyCLIOverrides (rules : List LoadedRule) (enableIDs disableIDs : List String) :
    List LoadedRule :=
  rules.map (applyCLIOne (normalizeSet enableIDs) (normalizeSet disableIDs))

/-! ### Cleanup data model (internal/cleanup/cleanup.go:16-66) -/

structure Edit where
  file : String
  description : String
  before : String
  after : String
  applied : Bool
deriving Repr, DecidableEq

structure ProjectFile where
  path : String
  content : String
deriving Repr, DecidableEq

structure Task where
  id : String
  ruleID : String
  ruleTitle : String
  description : String
  files : List String
deriving Repr, DecidableEq

structure TaskResult where
  taskID : String
  ruleID : String
  changedFiles : List String
  applied : Bool
  summary : String
  error : String
deriving Repr, DecidableEq

structure ProgressEvent where
  file : String
  ruleID : String
  ruleTitle : String
  phase : String
  description : String
deriving Repr, DecidableEq

/-- Oracle response (cleanup.go:58-62).  `changedFiles` is a Go map in the
source; it is modelled as the association list in which the executor's
`for path, next := range` loop visits the entries. -/
structure ProjectTransformResult where
  changed : Bool
  summary : String
  changedFiles : List (String × String)
deriving Repr, DecidableEq

/-- Abstraction of `ProjectExecutor.TransformProject` (cleanup.go:64-66);
the context and project root are dropped, errors are the `Except` branch. -/
def Oracle : Type :=
  List ProjectFile → Task → List Rule → Bool → Bool →
    Except String ProjectTransformResult

/-- Translation of `nonEmpty` (cleanup.go:460-466). -/
def nonEmpty (v fallback : String) : String :=
  if trimStr v = "" then fallback else trimStr v

/-! ### Task planner (cleanup.go:96-112, 321-357, 420-458) -/

/-- Collapses every run of characters outside `[a-z0-9]` to a single dash;
`inRun` records whether the previous character was inside such a run.
Together with the trim in `sanitizeID` this models the regex replacement
in cleanup.go:452. -/
def collapseNonAlnum : List Char → Bool → List Char
  | [], _ => []
  | c :: rest, inRun =>
    if ('a' ≤ c && c ≤ 'z') || ('0' ≤ c && c ≤ '9') then
      c :: collapseNonAlnum rest false
    else if inRun then collapseNonAlnum rest true
    else '-' :: collapseNonAlnum rest true

/-- Translation of `sanitizeID` (cleanup.go:450-458). -/
def sanitizeID (s : String) : String :=
  let t := (collapseNonAlnum (lowerStr (trimStr s)).data false)
  let t := ((t.dropWhile (· = '-')).reverse.dropWhile (· = '-')).reverse
  if t.isEmpty then "task" else ⟨t⟩

/-- Model of `fmt.Sprintf` with verb `%03d` for the task index. -/
def pad3 (n : Nat) : String :=
  if n < 10 then "00" ++ toString n
  else if n < 100 then "0" ++ toString n
  else toString n

/-- Lower-cased concatenated rule text used for heuristic dispatch
(cleanup.go:322). -/
def ruleText (r : Rule) : String :=
  lowerStr (r.id ++ " " ++ r.title ++ " " ++ r.description ++ " " ++ r.details)

/-- File-inclusion heuristic of `selectTaskFiles` (cleanup.go:325-346). -/
def includeFile (text : String) (f : ProjectFile) : Bool :=
  let c := lowerStr f.content
  if strContains text "redundant guard" then
    strContains c "if true" || strContains c "if (true)"
  else if strContains text "dry" || strContains text "duplicate" then
    countSub c "func " > 1 || countSub c "function " > 1
  else if strContains text "error handling" then
    strContains c " err" || strContains c "catch"
  else if strContains text "environment variable" || strContains text "gate features" then
    strContains c "os.Getenv" || strContains c "process.env"
  else if strContains text "split" && strContains text "function" then
    countSub c "\n" > 80
  else if strContains text "naming" then
    true
  else if strContains text "simplify complex" || strContains text "reduce complexity" then
    countSub c "if " > 3 || countSub c "switch " > 0
  else if strContains text "expensive" || strContains text "performance" || strContains text "hot path" then
    countSub c "for " > 1
  else
    true

/-- Heuristic selection with full-snapshot fallback: the `out` list of
`selectTaskFiles` just before the 24-file cap (cleanup.go:323-355). -/
def selectTaskFilesBase (files : List ProjectFile) (r : Rule) : List String :=
  let out := (files.filter (includeFile (ruleText r))).map (fun f => f.path)
  if out.isEmpty then files.map (fun f => f.path) else out

/-- Translation of `capTaskFiles` (cleanup.go:420-425). -/
def capTaskFiles (files : List String) (max : Nat) : List String :=
  if files.length ≤ max then files else files.take max

/-- Translation of `selectTaskFiles` (cleanup.go:321-357). -/
def selectTaskFiles (files : List ProjectFile) (r : Rule) : List String :=
  capTaskFiles (selectTaskFilesBase files r) 24

/-- Indexed loop body of `BuildTaskPlan` (cleanup.go:98-110). -/
def buildTaskPlanGo (files : List ProjectFile) : List Rule → Nat → List Task
  | [], _ => []
  | r :: rest, i =>
    let targets := selectTaskFiles files r
    if targets.isEmpty then buildTaskPlanGo files rest (i + 1)
    else
      { id := "task-" ++ pad3 (i + 1) ++ "-" ++ sanitizeID r.id,
        ruleID := r.id, ruleTitle := r.title, description := r.description,
        files := targets } :: buildTaskPlanGo files rest (i + 1)

/-- Translation of `BuildTaskPlan` (cleanup.go:96-112). -/
def BuildTaskPlan (files : List ProjectFile) (selectedRules : List Rule) : List Task :=
  buildTaskPlanGo files selectedRules 0

/-! ### Task executor (cleanup.go:114-224, 402-418) -/

/-- Translation of `filesForTask` (cleanup.go:402-418); a missing working
copy entry reads as Go's zero-valued string. -/
def filesForTask (snapshot : List ProjectFile) (t : Task)
    (current : List (String × String)) : List ProjectFile :=
  (snapshot.filter (fun f => t.files.contains f.path)).map
    (fun f => { path := f.path, content := (lookupA current f.path).getD "" })

/-- Executor state threaded through the task loop: the working copy and
the accumulators `plan.Edits`, `applied`, `results`, plus the explicit
on-disk content and the stream of progress events the executor emits. -/
structure ExecState where
  current : List (String × String)
  disk : List (String × String)
  planEdits : List Edit
  applied : List Edit
  results : List TaskResult
  events : List ProgressEvent
deriving Repr, DecidableEq

def runningEvent (t : Task) : ProgressEvent :=
  { file := "", ruleID := t.ruleID, ruleTitle := t.ruleTitle, phase := "running",
    description := "executing task " ++ t.id }

def errorEvent (t : Task) (e : String) : ProgressEvent :=
  { file := "", ruleID := t.ruleID, ruleTitle := t.ruleTitle, phase := "error",
    description := e }

def noChangeEvent (t : Task) : ProgressEvent :=
  { file := "", ruleID := t.ruleID, ruleTitle := t.ruleTitle, phase := "no_change",
    description := "no changes" }

/-- The Edit record built at cleanup.go:185-191. -/
def mkChangeEdit (t : Task) (summary : String) (dryRun : Bool) (path : String) : Edit :=
  { file := path,
    description := "[" ++ t.ruleID ++ "] " ++ nonEmpty summary "AI project cleanup change",
    before := "project-level AI task",
    after := "updated content",
    applied := !dryRun }

/-- Result of the executor's per-file filter loop. -/
structure ApplyOutcome where
  current : List (String × String)
  changedPaths : List String
  edits : List Edit
  events : List ProgressEvent
deriving Repr, DecidableEq

/-- Translation of the `for path, next := range result.ChangedFiles` loop
(cleanup.go:177-203): skip entries whose path is unknown to the working
copy or whose content is byte-identical, otherwise update the working
copy and append an Edit and a "changed" event. -/
def applyChangedFiles (t : Task) (summary : String) (dryRun : Bool) :
    List (String × String) → List (String × String) → ApplyOutcome
  | [], current => { current := current, changedPaths := [], edits := [], events := [] }
  | (path, next) :: rest, current =>
    match lookupA current path with
    | none => applyChangedFiles t summary dryRun rest current
    | some prev =>
      if next = prev then applyChangedFiles t summary dryRun rest current
      else
        let edit := mkChangeEdit t summary dryRun path
        let ev : ProgressEvent :=
          { file := path, ruleID := t.ruleID, ruleTitle := t.ruleTitle,
            phase := "changed", description := edit.description }
        let out := applyChangedFiles t summary dryRun rest (setA current path next)
        { out with changedPaths := path :: out.changedPaths,
                   edits := edit :: out.edits, events := ev :: out.events }

/-- The per-task disk persistence loop (cleanup.go:214-220), writes
modelled as always succeeding. -/
def writeAll (current : List (String × String)) :
    List String → List (String × String) → List (String × String)
  | [], disk => disk
  | p :: ps, disk => writeAll current ps (setA disk p ((lookupA current p).getD ""))

/-- Translation of one iteration of the task loop of `ExecuteTaskPlan`
(cleanup.go:128-221): the second component is `some err` when the
iteration returns early (oracle error), otherwise `none` and the loop
continues from the returned state. -/
def execStep (oracle : Oracle) (snapshot : List ProjectFile)
    (selectedRules : List Rule) (safe aggressive dryRun : Bool)
    (task : Task) (s : ExecState) : ExecState × Option String :=
  let taskFiles := filesForTask snapshot task s.current
  let s := { s with events := s.events ++ [runningEvent task] }
  match oracle taskFiles task selectedRules safe aggressive with
  | .error e =>
    ({ s with
        results := s.results ++
          [{ taskID := task.id, ruleID := task.ruleID, changedFiles := [],
             applied := false, summary := "", error := e }],
        events := s.events ++ [errorEvent task e] },
      some ("cleanup task " ++ task.id ++ " failed: " ++ e))
  | .ok result =>
    if !result.changed || result.changedFiles.isEmpty then
      ({ s with
          results := s.results ++
            [{ taskID := task.id, ruleID := task.ruleID, changedFiles := [],
               applied := false, summary := "no changes", error := "" }],
          events := s.events ++ [noChangeEvent task] }, none)
    else
      let out := applyChangedFiles task result.summary dryRun result.changedFiles s.current
      let s := { s with current := out.current,
                        planEdits := s.planEdits ++ out.edits,
                        applied := s.applied ++ out.edits,
                        events := s.events ++ out.events }
      if out.changedPaths.isEmpty then (s, none)
      else
        let s := { s with
            results := s.results ++
              [{ taskID := task.id, ruleID := task.ruleID,
                 changedFiles := out.changedPaths, applied := !dryRun,
                 summary := nonEmpty result.summary "task applied", error := "" }] }
        let s := if dryRun then s
          else { s with disk := writeAll s.current out.changedPaths s.disk }
        (s, none)

/-- Translation of the task loop of `ExecuteTaskPlan` (cleanup.go:128-223):
run the per-task step, return the accumulated state together with the
error on an early return, otherwise continue with the remaining tasks. -/
def execTasks (oracle : Oracle) (snapshot : List ProjectFile)
    (selectedRules : List Rule) (safe aggressive dryRun : Bool) :
    List Task → ExecState → ExecState × Option String
  | [], s => (s, none)
  | task :: rest, s =>
    match execStep oracle snapshot selectedRules safe aggressive dryRun task s with
    | (s1, none) => execTasks oracle snapshot selectedRules safe aggressive dryRun rest s1
    | (s1, some e) => (s1, some e)

/-- Initial executor state: working copy seeded from the snapshot
(cleanup.go:119-122), with the given initial disk content. -/
def initExecState (snapshot : List ProjectFile) (disk0 : List (String × String)) :
    ExecState :=
  { current := snapshot.foldl (fun m f => setA m f.path f.content) [],
    disk := disk0, planEdits := [], applied := [], results := [], events := [] }

/-- Translation of `ExecuteTaskPlan` (cleanup.go:114-224) for a non-nil
executor; the final state carries the plan, the applied edits, the task
results, the event stream, and the resulting working copy and disk. -/
def ExecuteTaskPlan (snapshot : List ProjectFile) (tasks : List Task)
    (selectedRules : List Rule) (safe aggressive dryRun : Bool) (oracle : Oracle)
    (disk0 : List (String × String)) : ExecState × Option String :=
  execTasks oracle snapshot selectedRules safe aggressive dryRun tasks
    (initExecState snapshot disk0)

/-! ### Oracle client: retry loop and batching (ai package) -/

/-- Shape of a Go transport error as seen by `isRetryable`. -/
structure TransportError where
  deadlineExceeded : Bool
  canceled : Bool
  msg : String
deriving Repr, DecidableEq

structure ChatMessage where
  content : String
deriving Repr, DecidableEq

structure ChatChoice where
  message : ChatMessage
deriving Repr, DecidableEq

structure ApiError where
  message : String
deriving Repr, DecidableEq

structure ChatCompletionResponse where
  choices : List ChatChoice
  error : Option ApiError
deriving Repr, DecidableEq

/-- Outcome of one HTTP attempt: either `client.Do` fails, or a response
arrives with a status, a raw body, and the result of JSON-decoding the
body (`none` models a decode failure). -/
inductive HTTPResult where
  | doErr (e : TransportError)
  | resp (status : Nat) (body : String) (decoded : Option ChatCompletionResponse)
deriving Repr, DecidableEq

/-- Translation of `isRetryable`: deadline-exceeded and canceled context
errors, and error messages containing the listed substrings, retry. -/
def isRetryable (e : TransportError) : Bool :=
  e.deadlineExceeded || e.canceled ||
    (let m := lowerStr e.msg
     strContains m "timeout" || strContains m "deadline exceeded" ||
       strContains m "temporarily unavailable")

/-- Fragment of `net/http.StatusText` covering the statuses exercised in
this development; other codes map to the empty string. -/
def statusText (code : Nat) : String :=
  if code = 404 then "Not Found"
  else if code = 429 then "Too Many Requests"
  else if code = 500 then "Internal Server Error"
  else if code = 503 then "Service Unavailable"
  else ""

/-- Error message built for a non-2xx response: trimmed body, status text
fallback, and a 300-character preview bound. -/
def respErrMsg (status : Nat) (body : String) : String :=
  let msg := trimStr body
  let msg := if msg = "" then statusText status else msg
  let msg := if msg.data.length > 300 then (⟨msg.data.take 300⟩ : String) ++ "..." else msg
  "OpenAI HTTP " ++ toString status ++ ": " ++ msg

/-- One-indexed retry loop of `chatCompletionsWithRetry`.  `rem` is the
number of loop iterations left (`maxAttempts + 1 - attempt`), making the
recursion structural; the branch conditions mirror the source.  The
second component records the sleeps performed, in seconds (the source
sleeps `attempt × 1s` before the next attempt).  A decode failure is
reported with the fixed message prefix used by the source. -/
def runRetry (att : Nat → HTTPResult) (maxAttempts : Nat) :
    Nat → Nat → Option String → List Nat → Except String String × List Nat
  | 0, _, lastErr, delays =>
    (match lastErr with
      | none => .ok ""
      | some e => .error e, delays)
  | rem + 1, attempt, _lastErr, delays =>
    match att attempt with
    | .doErr e =>
      if !isRetryable e || attempt = maxAttempts then (.error e.msg, delays)
      else runRetry att maxAttempts rem (attempt + 1) (some e.msg) (delays ++ [attempt])
    | .resp status body decoded =>
      if status < 200 || 300 ≤ status then
        let errMsg := respErrMsg status body
        if attempt = maxAttempts || status < 500 then (.error errMsg, delays)
        else runRetry att maxAttempts rem (attempt + 1) (some errMsg) (delays ++ [attempt])
      else
        match decoded with
        | none =>
          if attempt = maxAttempts then (.error "decode OpenAI response", delays)
          else runRetry att maxAttempts rem (attempt + 1)
            (some "decode OpenAI response") (delays ++ [attempt])
        | some parsed =>
          match parsed.error with
          | some ae =>
            let m := "OpenAI API error: " ++ ae.message
            if attempt = maxAttempts then (.error m, delays)
            else runRetry att maxAttempts rem (attempt + 1) (some m) (delays ++ [attempt])
          | none =>
            match parsed.choices with
            | [] =>
              if attempt = maxAttempts then (.error "OpenAI returned no choices", delays)
              else runRetry att maxAttempts rem (attempt + 1)
                (some "OpenAI returned no choices") (delays ++ [attempt])
            | c :: _ => (.ok (trimStr c.message.content), delays)

/-- Translation of `chatCompletionsWithRetry`: attempts run from 1 up to
`maxAttempts`, so exactly `maxAttempts` loop iterations are available. -/
def chatCompletionsWithRetry (att : Nat → HTTPResult) (maxAttempts : Nat) :
    Except String String × List Nat :=
  runRetry att maxAttempts maxAttempts 1 none []

/-- Flat per-outcome reading of the retry loop's classification: `done`
is terminal regardless of remaining attempts, `again` retries while
attempts remain and is terminal at the ceiling. -/
inductive RetryStep where
  | done (v : Except String String)
  | again (errMsg : String)
deriving Repr

/-- Classification the loop body applies to a single attempt outcome:
retryable transport errors, 5xx responses, decode failures, API-error
payloads and empty-choices responses all retry; non-retryable transport
errors and non-2xx statuses below 500 are terminal. -/
def classifyOutcome (o : HTTPResult) : RetryStep :=
  match o with
  | .doErr e => if isRetryable e then .again e.msg else .done (.error e.msg)
  | .resp status body decoded =>
    if status < 200 || 300 ≤ status then
      if status < 500 then .done (.error (respErrMsg status body))
      else .again (respErrMsg status body)
    else
      match decoded with
      | none => .again "decode OpenAI response"
      | some parsed =>
        match parsed.error with
        | some ae => .again ("OpenAI API error: " ++ ae.message)
        | none =>
          match parsed.choices with
          | [] => .again "OpenAI returned no choices"
          | c :: _ => .done (.ok (trimStr c.message.content))

/-- Translation of the accumulation loop of `batchFiles`. -/
def batchFilesGo (maxBytes : Nat) :
    List ProjectFile → List ProjectFile → Nat → List (List ProjectFile) →
      List (List ProjectFile)
  | [], cur, _, batches => if cur.isEmpty then batches else batches ++ [cur]
  | f :: rest, cur, curSize, batches =>
    let size := f.path.utf8ByteSize + f.content.utf8ByteSize
    if !cur.isEmpty && curSize + size > maxBytes then
      batchFilesGo maxBytes rest [f] size (batches ++ [cur])
    else
      batchFilesGo maxBytes rest (cur ++ [f]) (curSize + size) batches

/-- Translation of `batchFiles`. -/
def batchFiles (files : List ProjectFile) (maxBytes : Nat) : List (List ProjectFile) :=
  batchFilesGo maxBytes files [] 0 []

/-- Per-batch loop of `TransformProject`: union of changed files via map
assignment, summaries joined from non-blank batch summaries. -/
def transformProjectGo
    (batchFn : List ProjectFile → Except String ProjectTransformResult) :
    List (List ProjectFile) → List (String × String) → List String →
      Except String ProjectTransformResult
  | [], changedFiles, summaries =>
    .ok { changed := !changedFiles.isEmpty,
          summary := joinWith "; " summaries,
          changedFiles := changedFiles }
  | b :: rest, changedFiles, summaries =>
    match batchFn b with
    | .error e => .error e
    | .ok res =>
      let changedFiles := res.changedFiles.foldl (fun m pc => setA m pc.1 pc.2) changedFiles
      let summaries := if trimStr res.summary ≠ "" then summaries ++ [res.summary] else summaries
      transformProjectGo batchFn rest changedFiles summaries

/-- Translation of `TransformProject` with the network-bound
`transformBatch` abstracted as the `batchFn` parameter. -/
def TransformProject
    (batchFn : List ProjectFile → Except String ProjectTransformResult)
    (files : List ProjectFile) : Except String ProjectTransformResult :=
  if files.isEmpty then
    .ok { changed := false, summary := "", changedFiles := [] }
  else
    transformProjectGo batchFn (batchFiles files 180000) [] []

/-! ### Permission engine (permission package) -/

structure Engine where
  mode : String
  autoApply : Bool
  nonInteractive : Bool
deriving Repr, DecidableEq

/-- Translation of `isYes`. -/
def isYes (s : String) : Bool :=
  let v := lowerStr (trimStr s)
  v = "y" || v = "yes"

/-- Translation of `Engine.ApproveFile`; the TUI prompt is abstracted as
`pf`, returning the user's response or an input error. -/
def ApproveFile (e : Engine) (pf : String → Except String String)
    (file : String) (changes : Nat) : Except String Bool :=
  if e.autoApply || e.nonInteractive then .ok true
  else if e.mode = "per-edit" then .ok true
  else
    match pf ("Approve file changes for " ++ file ++ " (" ++ toString changes ++
        " edits)? [y/N]: ") with
    | .error err => .error err
    | .ok resp => .ok (isYes resp)

/-- Translation of `Engine.ApproveEdit`. -/
def ApproveEdit (e : Engine) (pf : String → Except String String)
    (file desc : String) : Except String Bool :=
  if e.autoApply || e.nonInteractive then .ok true
  else if e.mode ≠ "per-edit" then .ok true
  else
    match pf ("Approve edit in " ++ file ++ ": " ++ desc ++ " [y/N]: ") with
    | .error err => .error err
    | .ok resp => .ok (isYes resp)

/-! ## Theorems -/

/-- C4: `mergeRule` takes Title, Description, Details and RiskLevel from
the override exactly when the override's value is non-blank (keeping the
base value otherwise), and Enabled is always taken verbatim from the
override; in particular an override with Enabled=false disables a
base-enabled rule, and a blank override Description leaves the base
Description unchanged. -/
theorem mergeRule_override_semantics (base override : Rule) :
    (trimStr override.title ≠ "" → (mergeRule base override).title = override.title) ∧
    (trimStr override.title = "" → (mergeRule base override).title = base.title) ∧
    (trimStr override.description ≠ "" →
      (mergeRule base override).description = override.description) ∧
    (trimStr override.description = "" →
      (mergeRule base override).description = base.description) ∧
    (trimStr override.details ≠ "" → (mergeRule base override).details = override.details) ∧
    (trimStr override.details = "" → (mergeRule base override).details = base.details) ∧
    (trimStr override.riskLevel ≠ "" →
      (mergeRule base override).riskLevel = override.riskLevel) ∧
    (trimStr override.riskLevel = "" →
      (mergeRule base override).riskLevel = base.riskLevel) ∧
    (mergeRule base override).enabled = override.enabled := by
  by_cases h1 : trimStr override.title = "" <;>
    by_cases h2 : trimStr override.description = "" <;>
      by_cases h3 : trimStr override.details = "" <;>
        by_cases h4 : trimStr override.riskLevel = "" <;>
          simp [mergeRule, h1, h2, h3, h4]

/-- Witness for C4: a blank override description keeps the base
description, and the override's Enabled=false wins over the enabled base. -/
theorem mergeRule_override_semantics_witness :
    trimStr " " = "" ∧
    (mergeRule { id := "r", enabled := true, title := "T", description := "D",
                 details := "X", riskLevel := "safe" }
      { id := "r", enabled := false, title := "T2", description := " ",
        details := "", riskLevel := "" }).description = "D" ∧
    (mergeRule { id := "r", enabled := true, title := "T", description := "D",
                 details := "X", riskLevel := "safe" }
      { id := "r", enabled := false, title := "T2", description := " ",
        details := "", riskLevel := "" }).enabled = false := by
  have h := mergeRule_override_semantics
    { id := "r", enabled := true, title := "T", description := "D",
      details := "X", riskLevel := "safe" }
    { id := "r", enabled := false, title := "T2", description := " ",
      details := "", riskLevel := "" }
  exact ⟨rfl, h.2.2.2.1 rfl, h.2.2.2.2.2.2.2.2⟩

/-- C9: AutoApply or NonInteractive short-circuits both gates to true
without consulting the prompt; in per-edit mode `ApproveFile` is always
true and only `ApproveEdit` prompts; in per-file mode `ApproveEdit` is
always true and only `ApproveFile` prompts. -/
theorem approve_gate_semantics (e : Engine) (pf : String → Except String String)
    (file desc : String) (changes : Nat) :
    ((e.autoApply || e.nonInteractive) = true →
        ApproveFile e pf file changes = .ok true ∧ ApproveEdit e pf file desc = .ok true) ∧
    (e.autoApply = false → e.nonInteractive = false → e.mode = "per-edit" →
        ApproveFile e pf file changes = .ok true ∧
        ApproveEdit e pf file desc =
          (pf ("Approve edit in " ++ file ++ ": " ++ desc ++ " [y/N]: ")).map isYes) ∧
    (e.autoApply = false → e.nonInteractive = false → e.mode = "per-file" →
        ApproveEdit e pf file desc = .ok true ∧
        ApproveFile e pf file changes =
          (pf ("Approve file changes for " ++ file ++ " (" ++ toString changes ++
            " edits)? [y/N]: ")).map isYes) := by
  refine ⟨fun h => ?_, fun h1 h2 h3 => ?_, fun h1 h2 h3 => ?_⟩
  · constructor <;> simp [ApproveFile, ApproveEdit, h]
  · constructor
    · simp [ApproveFile, h1, h2, h3]
    · simp only [ApproveEdit, h1, h2, h3]
      cases pf ("Approve edit in " ++ file ++ ": " ++ desc ++ " [y/N]: ") <;>
        simp [Except.map]
  · constructor
    · simp [ApproveEdit, h1, h2, h3]
    · simp only [ApproveFile, h1, h2, h3]
      cases pf ("Approve file changes for " ++ file ++ " (" ++ toString changes ++
          " edits)? [y/N]: ") <;> simp [Except.map]

/-- Witness for C9 at concrete engines: short-circuit under AutoApply,
prompting per-edit, and prompting per-file. -/
theorem approve_gate_semantics_witness :
    (ApproveFile { mode := "per-file", autoApply := true, nonInteractive := false }
        (fun _ => .error "no tty") "f.go" 2 = .ok true ∧
      ApproveEdit { mode := "per-file", autoApply := true, nonInteractive := false }
        (fun _ => .error "no tty") "f.go" "d" = .ok true) ∧
    (ApproveFile { mode := "per-edit", autoApply := false, nonInteractive := false }
        (fun _ => .ok "y") "f.go" 2 = .ok true ∧
      ApproveEdit { mode := "per-edit", autoApply := false, nonInteractive := false }
        (fun _ => .ok "y") "f.go" "d" =
        ((fun _ => .ok "y") ("Approve edit in " ++ "f.go" ++ ": " ++ "d" ++
          " [y/N]: ") : Except String String).map isYes) ∧
    (ApproveEdit { mode := "per-file", autoApply := false, nonInteractive := false }
        (fun _ => .ok "n") "f.go" "d" = .ok true ∧
      ApproveFile { mode := "per-file", autoApply := false, nonInteractive := false }
        (fun _ => .ok "n") "f.go" 2 =
        ((fun _ => .ok "n") ("Approve file changes for " ++ "f.go" ++ " (" ++
          toString 2 ++ " edits)? [y/N]: ") : Except String String).map isYes) :=
  ⟨(approve_gate_semantics { mode := "per-file", autoApply := true, nonInteractive := false }
      (fun _ => .error "no tty") "f.go" "d" 2).1 rfl,
    (approve_gate_semantics { mode := "per-edit", autoApply := false, nonInteractive := false }
      (fun _ => .ok "y") "f.go" "d" 2).2.1 rfl rfl rfl,
    (approve_gate_semantics { mode := "per-file", autoApply := false, nonInteractive := false }
      (fun _ => .ok "n") "f.go" "d" 2).2.2 rfl rfl rfl⟩

/-- Accumulator invariant for the batching loop: flattening the final
batch list recovers the already-flushed batches, the open batch, and the
remaining input, in order. -/
theorem batchFilesGo_flatten (maxBytes : Nat) :
    ∀ (files cur : List ProjectFile) (curSize : Nat)
      (batches : List (List ProjectFile)),
      (batchFilesGo maxBytes files cur curSize batches).flatten =
        batches.flatten ++ cur ++ files := by
  intro files
  induction files with
  | nil =>
    intro cur curSize batches
    by_cases h : cur.isEmpty
    · rw [List.isEmpty_iff] at h
      simp [batchFilesGo, h]
    · simp [batchFilesGo, h]
  | cons f rest ih =>
    intro cur curSize batches
    simp only [batchFilesGo]
    split
    · rw [ih]; simp
    · rw [ih]; simp

/-- C10: `TransformProject` on an empty file list answers
Changed=false with an empty ChangedFiles map and no error for every
batch transformer (so no batch is ever invoked), and `batchFiles`
partitions its input: the concatenation of the batches is the input
list, in order. -/
theorem transformProject_empty_and_batch_partition :
    (∀ batchFn, TransformProject batchFn [] =
        .ok { changed := false, summary := "", changedFiles := [] }) ∧
    (∀ (files : List ProjectFile) (maxBytes : Nat),
        (batchFiles files maxBytes).flatten = files) := by
  constructor
  · intro batchFn; rfl
  · intro files maxBytes
    simpa using batchFilesGo_flatten maxBytes files [] 0 []

/-- Normalized forms of list entries are members of the normalized set. -/
theorem mem_normalizeSet {items : List String} {y : String} (hy : y ∈ items)
    (hne : lowerStr (trimStr y) ≠ "") : lowerStr (trimStr y) ∈ normalizeSet items := by
  unfold normalizeSet
  refine List.mem_filter.mpr ⟨List.mem_map.mpr ⟨y, hy, rfl⟩, ?_⟩
  simp [hne]

/-- Appending "cli" if missing never yields a second occurrence. -/
theorem count_cli_appendIfMissing {l : List String}
    (h : l.count "cli" ≤ 1) : (appendIfMissing l "cli").count "cli" ≤ 1 := by
  by_cases hm : "cli" ∈ l
  · simp [appendIfMissing, hm, h]
  · have h0 : l.count "cli" = 0 := List.count_eq_zero.mpr hm
    simp [appendIfMissing, hm, h0]

/-- One pass of the CLI-override loop preserves a single "cli" entry in
the source chain. -/
theorem applyCLIOne_count_cli (en dis : List String) (r : LoadedRule)
    (h : r.sourceChain.count "cli" ≤ 1) :
    (applyCLIOne en dis r).sourceChain.count "cli" ≤ 1 := by
  by_cases h1 : lowerStr (trimStr r.rule.id) ∈ en <;>
    by_cases h2 : lowerStr (trimStr r.rule.id) ∈ dis <;>
      simp [applyCLIOne, h1, h2]
  · exact count_cli_appendIfMissing (count_cli_appendIfMissing h)
  · exact count_cli_appendIfMissing h
  · exact count_cli_appendIfMissing h
  · exact h

/-- C8: CLI override matching is case-insensitive after trimming; an ID
in both the enable and the disable list ends up disabled (disable applies
last); and "cli" appears in a SourceChain at most once even across
repeated calls of `ApplyCLIOverrides`. -/
theorem applyCLIOverrides_semantics :
    (∀ (en dis : List String) (r : LoadedRule) (y : String), y ∈ dis →
        lowerStr (trimStr y) = lowerStr (trimStr r.rule.id) →
        lowerStr (trimStr r.rule.id) ≠ "" →
        (applyCLIOne (normalizeSet en) (normalizeSet dis) r).rule.enabled = false) ∧
    (∀ (en dis : List String) (r : LoadedRule) (x : String), x ∈ en →
        lowerStr (trimStr x) = lowerStr (trimStr r.rule.id) →
        lowerStr (trimStr r.rule.id) ≠ "" →
        lowerStr (trimStr r.rule.id) ∉ normalizeSet dis →
        (applyCLIOne (normalizeSet en) (normalizeSet dis) r).rule.enabled = true) ∧
    (∀ (rules : List LoadedRule) (en dis en2 dis2 : List String),
        (∀ r ∈ rules, r.sourceChain.count "cli" ≤ 1) →
        ∀ r2 ∈ ApplyCLIOverrides (ApplyCLIOverrides rules en dis) en2 dis2,
          r2.sourceChain.count "cli" ≤ 1) := by
  refine ⟨fun en dis r y hy hmatch hne => ?_, fun en dis r x hx hmatch hne hno => ?_,
    fun rules en dis en2 dis2 hall r2 hr2 => ?_⟩
  · have hmem : lowerStr (trimStr r.rule.id) ∈ normalizeSet dis :=
      hmatch ▸ mem_normalizeSet hy (hmatch.symm ▸ hne)
    simp [applyCLIOne, hmem]
  · have hmem : lowerStr (trimStr r.rule.id) ∈ normalizeSet en :=
      hmatch ▸ mem_normalizeSet hx (hmatch.symm ▸ hne)
    simp [applyCLIOne, hmem, hno]
  · simp only [ApplyCLIOverrides, List.mem_map] at hr2
    obtain ⟨r1, hr1, hEq2⟩ := hr2
    obtain ⟨r0, hr0, hEq1⟩ := hr1
    subst hEq2; subst hEq1
    exact applyCLIOne_count_cli _ _ _ (applyCLIOne_count_cli _ _ _ (hall r0 hr0))

/-- Witness for C8: a dotted mixed-case ID is matched after trimming and
lower-casing, an ID in both lists ends up disabled, and a doubled
override pass leaves a single "cli" provenance entry. -/
theorem applyCLIOverrides_semantics_witness :
    (applyCLIOne (normalizeSet ["rule-a"]) (normalizeSet [" RULE-A "])
        { rule := { id := "Rule-A", enabled := true, title := "t", description := "d",
                    details := "x", riskLevel := "" }, sourceChain := ["base"] }).rule.enabled
      = false ∧
    (applyCLIOne (normalizeSet ["rule-b"]) (normalizeSet [" RULE-A "])
        { rule := { id := " rule-B", enabled := false, title := "t", description := "d",
                    details := "x", riskLevel := "" }, sourceChain := ["base"] }).rule.enabled
      = true ∧
    (∀ r2 ∈ ApplyCLIOverrides
        (ApplyCLIOverrides
          [{ rule := { id := "Rule-A", enabled := true, title := "t", description := "d",
                       details := "x", riskLevel := "" }, sourceChain := ["base"] }]
          ["rule-a"] []) ["rule-a"] [],
      r2.sourceChain.count "cli" ≤ 1) := by
  refine ⟨applyCLIOverrides_semantics.1 ["rule-a"] [" RULE-A "] _ " RULE-A "
      (by decide) (by decide) (by decide),
    applyCLIOverrides_semantics.2.1 ["rule-b"] [" RULE-A "] _ "rule-b"
      (by decide) (by decide) (by decide) (by decide),
    applyCLIOverrides_semantics.2.2 _ ["rule-a"] [] ["rule-a"] [] ?_⟩
  intro r hr
  simp only [List.mem_singleton] at hr
  subst hr
  decide

/-- The 24-file cap is a `take`. -/
theorem capTaskFiles_eq_take (l : List String) (n : Nat) : capTaskFiles l n = l.take n := by
  unfold capTaskFiles
  split
  · exact (List.take_of_length_le (by assumption)).symm
  · rfl

/-- The pre-cap selection falls back to the full snapshot, so it is
non-empty whenever the snapshot is. -/
theorem selectTaskFilesBase_ne_nil {files : List ProjectFile} (r : Rule)
    (h : files ≠ []) : selectTaskFilesBase files r ≠ [] := by
  simp only [selectTaskFilesBase, List.isEmpty_eq_true]
  by_cases hout : (List.filter (includeFile (ruleText r)) files).map (fun f => f.path) = []
  · rw [if_pos hout]; simpa using h
  · rw [if_neg hout]; exact hout

/-- Every planned task's file list is a heuristic selection, and the
planner's guard keeps only non-empty selections. -/
theorem mem_buildTaskPlanGo {files : List ProjectFile} :
    ∀ (rs : List Rule) (i : Nat) (t : Task), t ∈ buildTaskPlanGo files rs i →
      ∃ r, r ∈ rs ∧ t.files = selectTaskFiles files r ∧ selectTaskFiles files r ≠ [] := by
  intro rs
  induction rs with
  | nil => intro i t ht; simp [buildTaskPlanGo] at ht
  | cons r rest ih =>
    intro i t ht
    simp only [buildTaskPlanGo] at ht
    split at ht
    · obtain ⟨r2, hr2, hf⟩ := ih _ _ ht
      exact ⟨r2, List.mem_cons_of_mem _ hr2, hf⟩
    · rename_i hne
      rw [List.isEmpty_iff] at hne
      cases ht with
      | head => exact ⟨r, List.mem_cons_self _ _, rfl, hne⟩
      | tail _ h2 =>
        obtain ⟨r2, hr2, hf⟩ := ih _ _ h2
        exact ⟨r2, List.mem_cons_of_mem _ hr2, hf⟩

/-- C5: every task returned by the planner has at most 24 files and
never zero files; the heuristic falls back to the full snapshot before
truncation, so the selection is non-empty for a non-empty snapshot; and
truncation is an order-preserving `take` of the selected files. -/
theorem buildTaskPlan_file_bounds :
    (∀ (files : List ProjectFile) (rules : List Rule) (t : Task),
        t ∈ BuildTaskPlan files rules → t.files.length ≤ 24 ∧ t.files ≠ []) ∧
    (∀ (files : List ProjectFile) (r : Rule), files ≠ [] →
        selectTaskFiles files r ≠ []) ∧
    (∀ (files : List ProjectFile) (r : Rule),
        selectTaskFiles files r = (selectTaskFilesBase files r).take 24) := by
  refine ⟨fun files rules t ht => ?_, fun files r h => ?_, fun files r => ?_⟩
  · obtain ⟨r, _, hf, hne⟩ := mem_buildTaskPlanGo rules 0 t ht
    refine ⟨?_, hf ▸ hne⟩
    rw [hf, selectTaskFiles, capTaskFiles_eq_take]
    simp [List.length_take]
  · rw [selectTaskFiles, capTaskFiles_eq_take]
    intro hc
    rcases List.take_eq_nil_iff.mp hc with h24 | hbase
    · exact absurd h24 (by decide)
    · exact selectTaskFilesBase_ne_nil r h hbase
  · rw [selectTaskFiles, capTaskFiles_eq_take]

/-- Witness for C5 on the repository's own test scenario: one Go file
with an always-true guard and the `remove_redundant_guards` rule. -/
theorem buildTaskPlan_file_bounds_witness :
    ({ path := "sample.go", content := "package main x if true y" } : ProjectFile) ∈
        ([{ path := "sample.go", content := "package main x if true y" }] :
          List ProjectFile) ∧
    (BuildTaskPlan [{ path := "sample.go", content := "package main x if true y" }]
        [{ id := "remove_redundant_guards", enabled := true,
           title := "Remove redundant guards",
           description := "Remove redundant guard conditions.",
           details := "Simplify always true guards.", riskLevel := "safe" }]).length = 1 ∧
    (∀ t ∈ BuildTaskPlan [{ path := "sample.go", content := "package main x if true y" }]
        [{ id := "remove_redundant_guards", enabled := true,
           title := "Remove redundant guards",
           description := "Remove redundant guard conditions.",
           details := "Simplify always true guards.", riskLevel := "safe" }],
      t.files.length ≤ 24 ∧ t.files ≠ []) ∧
    selectTaskFiles [{ path := "sample.go", content := "package main x if true y" }]
        { id := "remove_redundant_guards", enabled := true,
          title := "Remove redundant guards",
          description := "Remove redundant guard conditions.",
          details := "Simplify always true guards.", riskLevel := "safe" } ≠ [] := by
  refine ⟨by decide, by decide, fun t ht => buildTaskPlan_file_bounds.1 _ _ t ht, ?_⟩
  exact buildTaskPlan_file_bounds.2.1 _ _ (by decide)

/-- C3 (amended): each retry-loop iteration acts by the per-outcome
classification: outcomes classified `done` — successful responses,
non-retryable transport errors, and non-2xx statuses below 500 — return
immediately; outcomes classified `again` — retryable transport errors,
5xx responses, malformed (undecodable) bodies, API-error payloads and
empty-choices responses — sleep `attempt` seconds and move to the next
attempt, except at the ceiling `attempt = maxAttempts`, where they
return the error.  In particular malformed bodies and API-error payloads
are retried, not terminal. -/
theorem retryLoop_classification (att : Nat → HTTPResult)
    (m attempt rem : Nat) (lastErr : Option String) (delays : List Nat)
    (hle : attempt ≤ m) (hrem : attempt + rem = m + 1) :
    runRetry att m rem attempt lastErr delays =
      match classifyOutcome (att attempt) with
      | .done v => (v, delays)
      | .again e =>
        if attempt = m then (.error e, delays)
        else runRetry att m (rem - 1) (attempt + 1) (some e) (delays ++ [attempt]) := by
  obtain ⟨r, rfl⟩ : ∃ r, rem = r + 1 := ⟨rem - 1, by omega⟩
  simp only [runRetry]
  cases h : att attempt with
  | doErr e =>
    by_cases hr : isRetryable e <;> by_cases hm : attempt = m <;>
      simp [classifyOutcome, hr, hm]
  | resp status body dec =>
    by_cases hs1 : status < 200
    · have h5 : status < 500 := by omega
      by_cases hm : attempt = m <;> simp [classifyOutcome, hs1, h5, hm]
    · by_cases hs2 : 300 ≤ status
      · by_cases h5 : status < 500
        · by_cases hm : attempt = m <;> simp [classifyOutcome, hs1, hs2, h5, hm]
        · by_cases hm : attempt = m <;> simp [classifyOutcome, hs1, hs2, h5, hm]
      · cases dec with
        | none => by_cases hm : attempt = m <;> simp [classifyOutcome, hs1, hs2, hm]
        | some parsed =>
          cases hperr : parsed.error with
          | some ae =>
            by_cases hm : attempt = m <;> simp [classifyOutcome, hs1, hs2, hm, hperr]
          | none =>
            cases hch : parsed.choices with
            | nil =>
              by_cases hm : attempt = m <;>
                simp [classifyOutcome, hs1, hs2, hm, hperr, hch]
            | cons c cs => simp [classifyOutcome, hs1, hs2, hperr, hch]

/-- Attempt sequence whose first attempt yields a 2xx response with a
malformed (undecodable) body and whose second attempt succeeds. -/
def c3Attempts : Nat → HTTPResult := fun n =>
  if n = 1 then .resp 200 "not json" none
  else .resp 200 ""
    (some { choices := [{ message := { content := "hi" } }], error := none })

/-- Counterexample to C3 as stated: a malformed response body is not
terminal for the batch — after attempt 1 returns an undecodable 2xx
body, the loop sleeps 1 second and retries, and the batch succeeds on
attempt 2. -/
theorem retry_decode_failure_is_retried :
    c3Attempts 1 = .resp 200 "not json" none ∧
    chatCompletionsWithRetry c3Attempts 3 = (.ok "hi", [1]) :=
  ⟨rfl, rfl⟩

/-- Witness for the amended C3 at a concrete input: the first attempt of
`c3Attempts` is classified `again` and the loop recurses with a 1-second
sleep recorded. -/
theorem retryLoop_classification_witness :
    (1 : Nat) ≤ 3 ∧ (1 : Nat) + 3 = 3 + 1 ∧
    runRetry c3Attempts 3 3 1 none [] =
      (match classifyOutcome (c3Attempts 1) with
        | .done v => (v, ([] : List Nat))
        | .again e =>
          if (1 : Nat) = 3 then (.error e, ([] : List Nat))
          else runRetry c3Attempts 3 (3 - 1) (1 + 1) (some e) ([] ++ [1])) :=
  ⟨by decide, by decide,
    retryLoop_classification c3Attempts 3 1 3 none [] (by decide) (by decide)⟩

/-- Executing a concatenated task list runs the first part and, only if
it finished without an early return, continues with the second from the
accumulated state. -/
theorem execTasks_append (oracle : Oracle) (snapshot : List ProjectFile)
    (rules : List Rule) (safe aggressive dryRun : Bool)
    (xs ys : List Task) (s : ExecState) :
    execTasks oracle snapshot rules safe aggressive dryRun (xs ++ ys) s =
      match execTasks oracle snapshot rules safe aggressive dryRun xs s with
      | (s1, none) => execTasks oracle snapshot rules safe aggressive dryRun ys s1
      | (s1, some e) => (s1, some e) := by
  induction xs generalizing s with
  | nil => simp [execTasks]
  | cons t ts ih =>
    simp only [List.cons_append, execTasks]
    cases hstep : execStep oracle snapshot rules safe aggressive dryRun t s with
    | mk s1 err =>
      cases err with
      | none => simp [ih]
      | some e => simp

/-- C1: when the oracle fails on a task, the executor records a
TaskResult with Applied=false and the error for that task, emits the
"error" event, and returns immediately with everything accumulated so
far — the plan, applied edits, results, and per-task disk writes of the
earlier tasks are retained unchanged — plus the wrapped error; no event
(in particular no "running" event, hence no oracle invocation) ever
happens for any later task. -/
theorem executeTaskPlan_oracle_error_aborts (oracle : Oracle)
    (snapshot : List ProjectFile) (rules : List Rule)
    (safe aggressive dryRun : Bool) (pre : List Task) (t : Task)
    (post : List Task) (disk0 : List (String × String)) (s1 : ExecState) (e : String)
    (hpre : execTasks oracle snapshot rules safe aggressive dryRun pre
      (initExecState snapshot disk0) = (s1, none))
    (herr : oracle (filesForTask snapshot t s1.current) t rules safe aggressive
      = .error e) :
    ExecuteTaskPlan snapshot (pre ++ t :: post) rules safe aggressive dryRun
        oracle disk0 =
      ({ s1 with
          results := s1.results ++
            [{ taskID := t.id, ruleID := t.ruleID, changedFiles := [],
               applied := false, summary := "", error := e }],
          events := s1.events ++ [runningEvent t, errorEvent t e] },
        some ("cleanup task " ++ t.id ++ " failed: " ++ e)) := by
  rw [ExecuteTaskPlan, execTasks_append, hpre]
  simp only [execTasks, execStep]
  rw [herr]
  simp

/-- Task list and oracle for the C1 witness: three tasks, the oracle
succeeds on t1, fails on t2. -/
def w1Snap : List ProjectFile :=
  [{ path := "a.go", content := "alpha" }, { path := "b.go", content := "beta" }]

def w1T1 : Task :=
  { id := "t1", ruleID := "r1", ruleTitle := "R1", description := "d1", files := ["a.go"] }

def w1T2 : Task :=
  { id := "t2", ruleID := "r2", ruleTitle := "R2", description := "d2", files := ["b.go"] }

def w1T3 : Task :=
  { id := "t3", ruleID := "r3", ruleTitle := "R3", description := "d3", files := ["a.go"] }

def w1Oracle : Oracle := fun files t _ _ _ =>
  if t.id = "t2" then .error "boom"
  else .ok { changed := true, summary := "s",
             changedFiles := files.map (fun f => (f.path, f.content ++ "!")) }

def w1Disk : List (String × String) := [("a.go", "alpha"), ("b.go", "beta")]

def w1S1 : ExecState :=
  (execTasks w1Oracle w1Snap [] false false false [w1T1]
    (initExecState w1Snap w1Disk)).1

/-- Witness for C1: with the oracle failing on task 2 of 3, the executor
stops after task 2 with task 1's work retained. -/
theorem executeTaskPlan_oracle_error_aborts_witness :
    execTasks w1Oracle w1Snap [] false false false [w1T1]
        (initExecState w1Snap w1Disk) = (w1S1, none) ∧
    w1Oracle (filesForTask w1Snap w1T2 w1S1.current) w1T2 [] false false
      = .error "boom" ∧
    ExecuteTaskPlan w1Snap ([w1T1] ++ w1T2 :: [w1T3]) [] false false false
        w1Oracle w1Disk =
      ({ w1S1 with
          results := w1S1.results ++
            [{ taskID := w1T2.id, ruleID := w1T2.ruleID, changedFiles := [],
               applied := false, summary := "", error := "boom" }],
          events := w1S1.events ++ [runningEvent w1T2, errorEvent w1T2 "boom"] },
        some ("cleanup task " ++ w1T2.id ++ " failed: " ++ "boom")) :=
  ⟨rfl, rfl,
    executeTaskPlan_oracle_error_aborts w1Oracle w1Snap [] false false false
      [w1T1] w1T2 [w1T3] w1Disk w1S1 "boom" rfl rfl⟩

/-- When every oracle-proposed entry is either for an unknown path or
byte-identical to the working copy, the per-file filter loop does
nothing. -/
theorem applyChangedFiles_all_identical (t : Task) (summary : String)
    (dryRun : Bool) :
    ∀ (changed current : List (String × String)),
      (∀ pc ∈ changed, lookupA current pc.1 = none ∨ lookupA current pc.1 = some pc.2) →
      applyChangedFiles t summary dryRun changed current =
        { current := current, changedPaths := [], edits := [], events := [] } := by
  intro changed
  induction changed with
  | nil => intro current _; rfl
  | cons pc rest ih =>
    intro current h
    obtain ⟨p, c⟩ := pc
    rcases h (p, c) (List.mem_cons_self _ _) with hn | hs
    · simp only [applyChangedFiles, hn]
      exact ih current (fun q hq => h q (List.mem_cons_of_mem _ hq))
    · simp only [applyChangedFiles, hs, if_pos]
      exact ih current (fun q hq => h q (List.mem_cons_of_mem _ hq))

/-- C2 (amended): when the oracle reports Changed=true with a non-empty
ChangedFiles map but the identity filter removes every candidate (each
entry is for an unknown path or byte-identical), the executor emits zero
Edits and records NO TaskResult at all — it silently continues to the
next task with only the "running" event recorded.  The
Applied=false/"no changes" TaskResult is recorded only in the
Changed=false-or-empty-ChangedFiles branch. -/
theorem executor_skips_fully_filtered_task (oracle : Oracle)
    (snapshot : List ProjectFile) (rules : List Rule)
    (safe aggressive dryRun : Bool) (t : Task) (rest : List Task)
    (s : ExecState) (result : ProjectTransformResult)
    (hok : oracle (filesForTask snapshot t s.current) t rules safe aggressive
      = .ok result)
    (hch : result.changed = true) (hne : result.changedFiles ≠ [])
    (hall : ∀ pc ∈ result.changedFiles,
        lookupA s.current pc.1 = none ∨ lookupA s.current pc.1 = some pc.2) :
    execTasks oracle snapshot rules safe aggressive dryRun (t :: rest) s =
      execTasks oracle snapshot rules safe aggressive dryRun rest
        { s with events := s.events ++ [runningEvent t] } := by
  have hcond : (!result.changed || result.changedFiles.isEmpty) = false := by
    simp [hch, hne]
  have happ := applyChangedFiles_all_identical t result.summary dryRun
    result.changedFiles s.current hall
  simp [execTasks, execStep, hok, hcond, happ]

/-- Scenario for the C2 counterexample: the oracle returns Changed=true
and maps the sole path to byte-identical content. -/
def c2Snap : List ProjectFile := [{ path := "p.go", content := "hello" }]

def c2Task : Task :=
  { id := "t1", ruleID := "r1", ruleTitle := "R1", description := "d", files := ["p.go"] }

def c2Oracle : Oracle := fun _ _ _ _ _ =>
  .ok { changed := true, summary := "s", changedFiles := [("p.go", "hello")] }

/-- Counterexample to C2 as stated: on the byte-identical scenario the
executor records NO TaskResult (the results list stays empty), rather
than a TaskResult with Applied=false and Summary="no changes"; it does
emit zero Edits. -/
theorem executor_fully_filtered_no_taskresult :
    c2Oracle (filesForTask c2Snap c2Task (initExecState c2Snap []).current)
        c2Task [] false false
      = .ok { changed := true, summary := "s", changedFiles := [("p.go", "hello")] } ∧
    lookupA (initExecState c2Snap []).current "p.go" = some "hello" ∧
    (ExecuteTaskPlan c2Snap [c2Task] [] false false false c2Oracle []).1.results = [] ∧
    (ExecuteTaskPlan c2Snap [c2Task] [] false false false c2Oracle []).1.planEdits = [] :=
  ⟨rfl, rfl, rfl, rfl⟩

/-- Witness for the amended C2 at the byte-identical scenario. -/
theorem executor_skips_fully_filtered_task_witness :
    execTasks c2Oracle c2Snap [] false false false [c2Task]
        (initExecState c2Snap []) =
      execTasks c2Oracle c2Snap [] false false false []
        { initExecState c2Snap [] with
            events := (initExecState c2Snap []).events ++ [runningEvent c2Task] } :=
  executor_skips_fully_filtered_task c2Oracle c2Snap [] false false false
    c2Task [] (initExecState c2Snap [])
    { changed := true, summary := "s", changedFiles := [("p.go", "hello")] }
    rfl rfl (by decide) (by decide)

/-- Assignment then lookup at the same key. -/
theorem lookupA_setA_self (l : List (String × String)) (p v : String) :
    lookupA (setA l p v) p = some v := by
  induction l with
  | nil => simp [setA, lookupA]
  | cons kw rest ih =>
    obtain ⟨k, w⟩ := kw
    by_cases h : k = p <;> simp [setA, lookupA, h, ih]

/-- Assignment does not disturb lookups at other keys. -/
theorem lookupA_setA_ne (l : List (String × String)) (p v q : String)
    (h : p ≠ q) : lookupA (setA l p v) q = lookupA l q := by
  induction l with
  | nil => simp [setA, lookupA, fun hc => h hc]
  | cons kw rest ih =>
    obtain ⟨k, w⟩ := kw
    by_cases hk : k = p
    · subst hk; simp [setA, lookupA, h, Ne.symm h, ih]
    · by_cases hq : k = q <;> simp [setA, lookupA, hk, hq, Ne.symm h, ih]

/-- Assigning to a key that is already bound preserves which keys are
bound. -/
theorem lookupA_setA_isSome (l : List (String × String)) (p v q : String)
    (hp : (lookupA l p).isSome = true) :
    (lookupA (setA l p v) q).isSome = (lookupA l q).isSome := by
  by_cases h : p = q
  · subst h; simp [lookupA_setA_self, hp]
  · rw [lookupA_setA_ne l p v q h]

/-- The executor's per-entry filter: an oracle-proposed (path, content)
pair produces an Edit exactly when the path is bound in the working copy
and the content differs from the bound value (cleanup.go:179-182). -/
def editCandidate (current : List (String × String)) (pc : String × String) : Bool :=
  match lookupA current pc.1 with
  | none => false
  | some prev => if pc.2 = prev then false else true

/-- Entries at other keys keep their candidate status across an
assignment. -/
theorem editCandidate_setA (current : List (String × String)) (p v : String)
    (q : String × String) (h : q.1 ≠ p) :
    editCandidate (setA current p v) q = editCandidate current q := by
  unfold editCandidate
  rw [lookupA_setA_ne current p v q.1 (fun hc => h hc.symm)]

/-- C7: the per-file loop appends an Edit for a (path, newContent) pair
iff the path is bound in the WorkingCopy and newContent differs
byte-for-byte from its current value (entries judged against the
incoming working copy, Go map keys being unique); each appended Edit has
Applied = ¬dryRun; the WorkingCopy is updated by exactly the
edit-producing entries; and the set of bound paths never shrinks. -/
theorem applyChangedFiles_edit_characterization (t : Task) (summary : String)
    (dryRun : Bool) :
    ∀ (changed current : List (String × String)),
      (changed.map Prod.fst).Nodup →
      (applyChangedFiles t summary dryRun changed current).edits =
          (changed.filter (editCandidate current)).map
            (fun pc => mkChangeEdit t summary dryRun pc.1) ∧
      (applyChangedFiles t summary dryRun changed current).changedPaths =
          (changed.filter (editCandidate current)).map Prod.fst ∧
      (∀ e ∈ (applyChangedFiles t summary dryRun changed current).edits,
          e.applied = !dryRun) ∧
      (applyChangedFiles t summary dryRun changed current).current =
          (changed.filter (editCandidate current)).foldl
            (fun cur pc => setA cur pc.1 pc.2) current ∧
      (∀ p, (lookupA (applyChangedFiles t summary dryRun changed current).current p).isSome
          = (lookupA current p).isSome) := by
  intro changed
  induction changed with
  | nil =>
    intro current _
    exact ⟨rfl, rfl, fun e he => by simp [applyChangedFiles] at he, rfl, fun p => rfl⟩
  | cons pc rest ih =>
    intro current hnd
    obtain ⟨p, c⟩ := pc
    rw [List.map_cons, List.nodup_cons] at hnd
    obtain ⟨hpn, hnd'⟩ := hnd
    have hothers : ∀ q ∈ rest, q.1 ≠ p := by
      intro q hq hqe
      exact hpn (List.mem_map.mpr ⟨q, hq, hqe⟩)
    cases hl : lookupA current p with
    | none =>
      have hcand : editCandidate current (p, c) = false := by
        simp [editCandidate, hl]
      obtain ⟨ihe, ihp, iha, ihc, ihs⟩ := ih current hnd'
      refine ⟨?_, ?_, ?_, ?_, ?_⟩ <;>
        simp only [applyChangedFiles, hl, List.filter_cons, hcand,
          Bool.false_eq_true, if_false]
      · exact ihe
      · exact ihp
      · exact iha
      · exact ihc
      · exact ihs
    | some prev =>
      by_cases hceq : c = prev
      · have hcand : editCandidate current (p, prev) = false := by
          simp [editCandidate, hl]
        obtain ⟨ihe, ihp, iha, ihc, ihs⟩ := ih current hnd'
        refine ⟨?_, ?_, ?_, ?_, ?_⟩ <;>
          simp only [applyChangedFiles, hl, hceq, eq_self_iff_true, if_true,
            List.filter_cons, hcand, Bool.false_eq_true, if_false]
        · exact ihe
        · exact ihp
        · exact iha
        · exact ihc
        · exact ihs
      · have hcand : editCandidate current (p, c) = true := by
          simp [editCandidate, hl, hceq]
        have hsome : (lookupA current p).isSome = true := by simp [hl]
        obtain ⟨ihe, ihp, iha, ihc, ihs⟩ := ih (setA current p c) hnd'
        have hfilter : rest.filter (editCandidate (setA current p c)) =
            rest.filter (editCandidate current) :=
          List.filter_congr (fun q hq => editCandidate_setA current p c q (hothers q hq))
        rw [hfilter] at ihe ihp ihc
        refine ⟨?_, ?_, ?_, ?_, ?_⟩ <;>
          simp only [applyChangedFiles, hl, if_neg hceq, List.filter_cons, hcand,
            if_true, if_pos]
        · simp [ihe]
        · simp [ihp]
        · intro e he
          rcases List.mem_cons.mp he with rfl | hmem
          · rfl
          · exact iha e hmem
        · simp [ihc]
        · intro q
          rw [ihs q, lookupA_setA_isSome current p c q hsome]

def w7Task : Task :=
  { id := "t", ruleID := "r", ruleTitle := "R", description := "d", files := [] }

/-- Witness for C7 on a two-entry oracle response over a two-file
working copy: one differing entry, one byte-identical entry. -/
theorem applyChangedFiles_edit_characterization_witness :
    ((([("a.go", "new"), ("b.go", "same")] : List (String × String)).map Prod.fst).Nodup) ∧
    ((applyChangedFiles w7Task "sum" true [("a.go", "new"), ("b.go", "same")]
        [("a.go", "old"), ("b.go", "same")]).edits =
        (([("a.go", "new"), ("b.go", "same")] : List (String × String)).filter
          (editCandidate [("a.go", "old"), ("b.go", "same")])).map
            (fun pc => mkChangeEdit w7Task "sum" true pc.1) ∧
      (applyChangedFiles w7Task "sum" true [("a.go", "new"), ("b.go", "same")]
        [("a.go", "old"), ("b.go", "same")]).changedPaths =
        (([("a.go", "new"), ("b.go", "same")] : List (String × String)).filter
          (editCandidate [("a.go", "old"), ("b.go", "same")])).map Prod.fst ∧
      (∀ e ∈ (applyChangedFiles w7Task "sum" true [("a.go", "new"), ("b.go", "same")]
          [("a.go", "old"), ("b.go", "same")]).edits, e.applied = !true) ∧
      (applyChangedFiles w7Task "sum" true [("a.go", "new"), ("b.go", "same")]
        [("a.go", "old"), ("b.go", "same")]).current =
        (([("a.go", "new"), ("b.go", "same")] : List (String × String)).filter
          (editCandidate [("a.go", "old"), ("b.go", "same")])).foldl
            (fun cur pc => setA cur pc.1 pc.2) [("a.go", "old"), ("b.go", "same")] ∧
      (∀ p, (lookupA (applyChangedFiles w7Task "sum" true
          [("a.go", "new"), ("b.go", "same")]
          [("a.go", "old"), ("b.go", "same")]).current p).isSome =
        (lookupA [("a.go", "old"), ("b.go", "same")] p).isSome)) :=
  ⟨by decide,
    applyChangedFiles_edit_characterization w7Task "sum" true
      [("a.go", "new"), ("b.go", "same")] [("a.go", "old"), ("b.go", "same")]
      (by decide)⟩

/-- A dry-run step never touches the disk. -/
theorem execStep_disk_dry (oracle : Oracle) (snapshot : List ProjectFile)
    (rules : List Rule) (safe aggressive : Bool) (t : Task) (s : ExecState) :
    ((execStep oracle snapshot rules safe aggressive true t s).1).disk = s.disk := by
  simp only [execStep]
  split
  · rfl
  · split
    · rfl
    · split
      · rfl
      · rfl

/-- A dry run leaves the disk exactly as it started. -/
theorem execTasks_disk_dry (oracle : Oracle) (snapshot : List ProjectFile)
    (rules : List Rule) (safe aggressive : Bool) :
    ∀ (tasks : List Task) (s : ExecState),
      ((execTasks oracle snapshot rules safe aggressive true tasks s).1).disk = s.disk := by
  intro tasks
  induction tasks with
  | nil => intro s; rfl
  | cons t rest ih =>
    intro s
    simp only [execTasks]
    cases hstep : execStep oracle snapshot rules safe aggressive true t s with
    | mk s1 err =>
      have hdisk : s1.disk = s.disk := by
        have h := execStep_disk_dry oracle snapshot rules safe aggressive t s
        rw [hstep] at h
        exact h
      cases err with
      | none => simpa [ih s1] using hdisk
      | some e => simpa using hdisk

/-- The per-file loop's working-copy and changed-path outputs do not
depend on the dry-run flag (only the Edits' applied flag does). -/
theorem applyChangedFiles_current_indep (t : Task) (summary : String)
    (d1 d2 : Bool) :
    ∀ (changed current : List (String × String)),
      (applyChangedFiles t summary d1 changed current).current =
          (applyChangedFiles t summary d2 changed current).current ∧
      (applyChangedFiles t summary d1 changed current).changedPaths =
          (applyChangedFiles t summary d2 changed current).changedPaths := by
  intro changed
  induction changed with
  | nil => intro current; exact ⟨rfl, rfl⟩
  | cons pc rest ih =>
    intro current
    obtain ⟨p, c⟩ := pc
    cases hl : lookupA current p with
    | none =>
      simp only [applyChangedFiles, hl]
      exact ih current
    | some prev =>
      by_cases hc : c = prev
      · simp only [applyChangedFiles, hl, hc, eq_self_iff_true, if_true]
        exact ih current
      · simp only [applyChangedFiles, hl, if_neg hc]
        obtain ⟨ih1, ih2⟩ := ih (setA current p c)
        exact ⟨ih1, by simp [ih2]⟩

/-- One executor step started from equal working copies produces equal
working copies and the same control-flow outcome, for any two dry-run
flags. -/
theorem execStep_current_indep (oracle : Oracle) (snapshot : List ProjectFile)
    (rules : List Rule) (safe aggressive : Bool) (d1 d2 : Bool) (t : Task)
    (s s' : ExecState) (hcur : s.current = s'.current) :
    ((execStep oracle snapshot rules safe aggressive d1 t s).1).current =
        ((execStep oracle snapshot rules safe aggressive d2 t s').1).current ∧
    (execStep oracle snapshot rules safe aggressive d1 t s).2 =
        (execStep oracle snapshot rules safe aggressive d2 t s').2 := by
  simp only [execStep, hcur]
  cases oracle (filesForTask snapshot t s'.current) t rules safe aggressive with
  | error e => exact ⟨rfl, rfl⟩
  | ok result =>
    by_cases h1 : (!result.changed || result.changedFiles.isEmpty) = true
    · simp [h1]
    · obtain ⟨hc, hp⟩ := applyChangedFiles_current_indep t result.summary d1 d2
        result.changedFiles s'.current
      by_cases h2 : (applyChangedFiles t result.summary d1 result.changedFiles
          s'.current).changedPaths.isEmpty = true
      · have h2' : (applyChangedFiles t result.summary d2 result.changedFiles
            s'.current).changedPaths.isEmpty = true := by rw [← hp]; exact h2
        simp [h1, h2, h2', hc]
      · have h2' : ¬(applyChangedFiles t result.summary d2 result.changedFiles
            s'.current).changedPaths.isEmpty = true := by rw [← hp]; exact h2
        cases d1 <;> cases d2 <;> simp [h1, h2, h2', hc]

/-- Executor runs started from equal working copies stay in lockstep on
the working copy, regardless of the dry-run flags. -/
theorem execTasks_current_indep (oracle : Oracle) (snapshot : List ProjectFile)
    (rules : List Rule) (safe aggressive : Bool) (d1 d2 : Bool) :
    ∀ (tasks : List Task) (s s' : ExecState), s.current = s'.current →
      ((execTasks oracle snapshot rules safe aggressive d1 tasks s).1).current =
        ((execTasks oracle snapshot rules safe aggressive d2 tasks s').1).current := by
  intro tasks
  induction tasks with
  | nil => intro s s' h; exact h
  | cons t rest ih =>
    intro s s' h
    obtain ⟨hc, he⟩ := execStep_current_indep oracle snapshot rules safe aggressive
      d1 d2 t s s' h
    simp only [execTasks]
    cases h1 : execStep oracle snapshot rules safe aggressive d1 t s with
    | mk s1 e1 =>
      cases h2 : execStep oracle snapshot rules safe aggressive d2 t s' with
      | mk s2 e2 =>
        rw [h1, h2] at hc he
        cases e1 with
        | none => cases he; exact ih s1 s2 hc
        | some e => cases he; exact hc

/-- C6: a dry run of `ExecuteTaskPlan` is a pure function of the
snapshot, tasks, rules and oracle behaviour (extensionally equal oracles
give identical results, so two consecutive dry runs produce identical
Plans with the same Edits in the same order); a dry run leaves the disk
exactly as given; and the working copy evolves identically to a wet run,
so later tasks observe earlier simulated edits. -/
theorem dryRun_determinism_and_isolation :
    (∀ (snapshot : List ProjectFile) (tasks : List Task) (rules : List Rule)
        (safe aggressive : Bool) (disk0 : List (String × String)) (o1 o2 : Oracle),
        (∀ files t rl sa ag, o1 files t rl sa ag = o2 files t rl sa ag) →
        ExecuteTaskPlan snapshot tasks rules safe aggressive true o1 disk0 =
          ExecuteTaskPlan snapshot tasks rules safe aggressive true o2 disk0) ∧
    (∀ (snapshot : List ProjectFile) (tasks : List Task) (rules : List Rule)
        (safe aggressive : Bool) (o : Oracle) (disk0 : List (String × String)),
        ((ExecuteTaskPlan snapshot tasks rules safe aggressive true o disk0).1).disk
          = disk0) ∧
    (∀ (snapshot : List ProjectFile) (tasks : List Task) (rules : List Rule)
        (safe aggressive : Bool) (o : Oracle) (disk0 disk1 : List (String × String)),
        ((ExecuteTaskPlan snapshot tasks rules safe aggressive true o disk0).1).current =
          ((ExecuteTaskPlan snapshot tasks rules safe aggressive false o disk1).1).current) := by
  refine ⟨fun snapshot tasks rules sa ag disk0 o1 o2 h => ?_,
    fun snapshot tasks rules sa ag o disk0 => ?_,
    fun snapshot tasks rules sa ag o disk0 disk1 => ?_⟩
  · have ho : o1 = o2 :=
      funext fun f => funext fun t => funext fun rl => funext fun a =>
        funext fun b => h f t rl a b
    rw [ho]
  · exact execTasks_disk_dry o snapshot rules sa ag tasks (initExecState snapshot disk0)
  · exact execTasks_current_indep o snapshot rules sa ag true false tasks
      (initExecState snapshot disk0) (initExecState snapshot disk1) rfl

/-- Witness for C6 at a concrete dry run: the oracle agreement
hypothesis is discharged by reflexivity and the disk is returned
unchanged. -/
theorem dryRun_determinism_and_isolation_witness :
    ExecuteTaskPlan c2Snap [c2Task] [] false false true w1Oracle [("p.go", "hello")] =
      ExecuteTaskPlan c2Snap [c2Task] [] false false true w1Oracle [("p.go", "hello")] ∧
    ((ExecuteTaskPlan c2Snap [c2Task] [] false false true w1Oracle
        [("p.go", "hello")]).1).disk = [("p.go", "hello")] ∧
    ((ExecuteTaskPlan c2Snap [c2Task] [] false false true w1Oracle []).1).current =
      ((ExecuteTaskPlan c2Snap [c2Task] [] false false false w1Oracle
        [("p.go", "hello")]).1).current :=
  ⟨dryRun_determinism_and_isolation.1 c2Snap [c2Task] [] false false
      [("p.go", "hello")] w1Oracle w1Oracle (fun _ _ _ _ _ => rfl),
    dryRun_determinism_and_isolation.2.1 c2Snap [c2Task] [] false false w1Oracle
      [("p.go", "hello")],
    dryRun_determinism_and_isolation.2.2 c2Snap [c2Task] [] false false w1Oracle
      [] [("p.go", "hello")]⟩

end Ccc
